import Mathlib

/-!
Verification of the Raven language front end (parser, symbol registry,
trait solver, monomorphiser) against its specification.

The Rust sources are embedded shallowly: pure functions become Lean
functions, mutable registry state becomes explicit state passing, and
panics / unwraps become `Option` results (`none` models the panic).
Machine integers that are only compared (priorities) become `Int`;
strings become Lean `String`s (the Rust code slices byte buffers, which
is modelled by storing each token's text directly).
-/

namespace Raven

/-- A parsing error.  The Rust `ParsingError` carries a file name, spans and a
message; only the message takes part in any claim, so errors are modelled by
their message string. -/
abbrev PError := String

/-- Modelled from the spec: the `Attribute` enum lives in
`language/syntax/src/lib.rs`, which is not under `src/`.  From §6 of the spec
and the uses in `syntax.rs` (`Attribute::find_attribute`,
`Attribute::String(_, name)`), an attribute is either a string attribute
(a name and a string value) or some other kind of attribute (only its name is
relevant here). -/
inductive Attribute where
  | string (name : String) (value : String)
  | other (name : String)
deriving DecidableEq

/-- Modelled from the spec: `Attribute::find_attribute(name, attributes)`
(not under `src/`) returns the first attribute with the given name. -/
def findAttribute (name : String) : List Attribute → Option Attribute
  | [] => none
  | .string n v :: rest => if n = name then some (.string n v) else findAttribute name rest
  | .other n :: rest => if n = name then some (.other n) else findAttribute name rest

/-! ## The old parser AST (`language/ast/src/code.rs`, used by
`language/parser/src/code.rs`)

`ast/src/code.rs` is not under `src/`; the shape of `Effects` and
`OperatorEffect` is modelled from its uses in `parser/src/code.rs`
(`assign_with_priority`) and §4.1.1 of the spec: an operator effect carries
the resolved trait function, a priority, a `parse_left` flag and its operand
effects.  The operator fields are inlined into the constructor. -/
inductive REffects where
  | NOP
  | IntLit (value : Int)
  | VariableLoad (name : String)
  | OperatorEffect (function : String) (priority : Int) (parse_left : Bool)
      (effects : List REffects)

/-- `assign_with_priority` from `language/parser/src/code.rs` (lines 203-236).
The newly parsed operator is passed as its four components.  `none` models the
two `unwrap` panics (empty operand list, and an operator right operand with no
operands).  Mirrors the source exactly:
* the last operand is swapped out (leaving `NOP` in its place);
* if it is an operator effect whose `priority` is lower than the new
  operator's, or equal with `parse_left` set, the tree is rotated: the right
  operand becomes the root and its first operand is overwritten with the new
  operator node.  (The source's first `mem::swap` at line 217 swaps two
  temporary `Option<&Effects>` values and therefore has no effect, so the
  right operand's first operand is lost and the new operator node keeps the
  `NOP` left by the initial swap.)
* otherwise the last operand is swapped back and the tree is unchanged. -/
def assign_with_priority (function : String) (priority : Int) (parse_left : Bool)
    (effects : List REffects) : Option REffects :=
  match effects.getLast? with
  | none => none
  | some (.OperatorEffect rf rp rl reff) =>
    if rp < priority ∨ (rp = priority ∧ rl = true) then
      match reff with
      | [] => none
      | _ :: rrest =>
        some (.OperatorEffect rf rp rl
          (.OperatorEffect function priority parse_left (effects.dropLast ++ [.NOP]) :: rrest))
    else
      some (.OperatorEffect function priority parse_left effects)
  | some _ => some (.OperatorEffect function priority parse_left effects)

/-! ### The old operator parser (`language/parser/src/code.rs`, lines 119-201)

`parse_operator` scans the operator table and matches each template against
the input.  Its `ParseInfo` cursor type lives in `parser/src/parser.rs`, not
under `src/`; its `next_included` and `matching` are modelled after the
in-src `Tokenizer` analogues (`tokenizer.rs` lines 55-81): skip whitespace,
yield the next character; consume a pattern on match, restore the cursor
otherwise.  A cursor is modelled by the remaining character list. -/

/-- `ParseInfo::next_included` (modelled after `Tokenizer::next_included`,
`tokenizer.rs` lines 55-70): skip spaces, newlines, carriage returns and
tabs; `none` at the end of the buffer. -/
def next_included : List Char → Option (Char × List Char)
  | [] => none
  | c :: rest =>
    if c = ' ' ∨ c = '\n' ∨ c = '\r' ∨ c = '\t' then next_included rest
    else some (c, rest)

/-- The consuming core of `ParseInfo::matching` (modelled after
`Tokenizer::matches`, `tokenizer.rs` lines 72-81): match the pattern
character by character through `next_included`; `none` when it fails. -/
def matchingChars : List Char → List Char → Option (List Char)
  | [], input => some input
  | c :: ps, input =>
    match next_included input with
    | some (c2, rest) => if c2 = c then matchingChars ps rest else none
    | none => none

/-- `ParseInfo::matching`: consume the pattern and report `true` on a match,
restore the cursor and report `false` otherwise. -/
def matching (pattern : List Char) (input : List Char) : Bool × List Char :=
  match matchingChars pattern input with
  | some rest => (true, rest)
  | none => (false, input)

/-- Modelled from usage and §4.1.1 of the spec: the trait function returned
by `type_manager.get_function(name)` (the old `ast` crate's `Function` and
the `TypeResolver` live outside `src/`); only the operator-relevant parts
are carried: the display name, field types (by type name), `priority` and
`parse_left`.  The operator table below pairs each template directly with
its function (`get_operations` then `get_function(name).unwrap()`). -/
structure OperatorFunction where
  name : String
  fields : List String
  priority : Int
  parse_left : Bool

/-- Outcome of trying one operator template in `parse_operator`:
`matched` is the `*parsing = temp; return Some(..)` path, `abandoned` is
`continue 'outer`, `panicked` is an out-of-bounds index or a failed
`unwrap`. -/
inductive TemplateResult where
  | matched (effect : REffects) (rest : List Char)
  | abandoned
  | panicked

/-- The argument type-check loops of `parse_operator` (`code.rs` lines
161-166 and 180-185), over the field-type/operand pairs: `none` models a
panicking `return_type(..).unwrap()`, `some false` a type mismatch
(`continue 'outer`), `some true` success.  `rt` abstracts
`effect.unwrap().return_type(type_manager)` (the `TypeResolver` lives
outside `src/`). -/
def checkArgs (rt : REffects → Option String) : List (String × REffects) → Option Bool
  | [] => some true
  | (ft, e) :: rest =>
    match rt e with
    | none => none
    | some t => if t = ft then checkArgs rt rest else some false

/-- The inner `loop` of `parse_operator` (`code.rs` lines 132-198) over one
template, after the leading-hole pre-check.  `op` is the remaining template,
`temp` the cloned input cursor, `effects` the operands parsed so far.
Mirrors the source exactly:
* a hole `{}` at the very end of the template parses one more operand
  (through the `pe` oracle standing for the mutually recursive
  `parse_effect`, whose own sub-parsers `literal.rs`/`conditional.rs`/
  `util.rs` are not under `src/`) and loops; on the next iteration the
  exhausted template falls into `next_included = None` and the template is
  *abandoned* - a template can only ever succeed at a literal character;
* a hole that is not final indexes `op_parsing.buffer[op_parsing.len + 1]`,
  which is out of bounds (`len` is the buffer length, cf. `Tokenizer::new`),
  hence `panicked`;
* a literal template character is compared against the next input character;
  on a match the function's arity and operand types are checked *immediately*
  - with the trailing hole not yet parsed - and the call returns; any failed
  check abandons the template (`continue 'outer`); with `last` present it is
  inserted as the first operand.
`fuel` only bounds the loop; `parse_operator` passes the template length
plus one, which the consumed template characters keep from ever running
out, so the fuel-0 default is unreachable. -/
def tryTemplate (pe : List Char → List Char → Option (REffects × List Char))
    (rt : REffects → Option String) (fn : OperatorFunction)
    (last : Option REffects) (escape : List Char) :
    Nat → List Char → List Char → List REffects → TemplateResult
  | 0, _, _, _ => .abandoned
  | fuel + 1, op, temp, effects =>
    match matchingChars ['{', '}'] op with
    | some op2 =>
      if op2.isEmpty then
        match pe escape temp with
        | some (eff, temp2) =>
          tryTemplate pe rt fn last escape fuel op2 temp2 (effects ++ [eff])
        | none => .abandoned
      else
        .panicked
    | none =>
      match next_included op with
      | none => .abandoned
      | some (comparing, _) =>
        match next_included temp with
        | none => .abandoned
        | some (against, temp2) =>
          if against = comparing then
            match last with
            | some l =>
              if fn.fields.length ≠ effects.length + 1 then .abandoned
              else
                match checkArgs rt ((fn.fields.drop 1).zip effects) with
                | none => .panicked
                | some false => .abandoned
                | some true =>
                  match rt l with
                  | none => .panicked
                  | some t =>
                    match fn.fields.head? with
                    | none => .panicked
                    | some f0 =>
                      if t ≠ f0 then .abandoned
                      else .matched
                        (.OperatorEffect fn.name fn.priority fn.parse_left (l :: effects))
                        temp2
            | none =>
              if fn.fields.length ≠ effects.length then .abandoned
              else
                match checkArgs rt (fn.fields.zip effects) with
                | none => .panicked
                | some false => .abandoned
                | some true =>
                  .matched (.OperatorEffect fn.name fn.priority fn.parse_left effects) temp2
          else
            .abandoned

/-- `parse_operator` from `language/parser/src/code.rs` (lines 119-201):
for each table entry, the leading-hole pre-check
(`op_parsing.matching("{}") != last.is_some()` skips the entry), then the
template loop (`tryTemplate`).  The outer `Option` is a panic (`none`); the
inner `Option` is the source's return value (`some none` = no operator
matched). -/
def parse_operator (pe : List Char → List Char → Option (REffects × List Char))
    (rt : REffects → Option String) (table : List (String × OperatorFunction))
    (last : Option REffects) (escape : List Char) (input : List Char) :
    Option (Option (REffects × List Char)) :=
  match table with
  | [] => some none
  | (templ, fn) :: rest =>
    let pre := matching ['{', '}'] templ.data
    if pre.1 ≠ last.isSome then
      parse_operator pe rt rest last escape input
    else
      match tryTemplate pe rt fn last escape (templ.data.length + 1) pre.2 input [] with
      | .matched eff rest2 => some (some (eff, rest2))
      | .abandoned => parse_operator pe rt rest last escape input
      | .panicked => none

/-! ## Finalized types and the trait solver (`language/syntax/src/syntax.rs`) -/

/-- Modelled from the spec: `StructData` lives in `language/syntax/src/struct.rs`,
which is not under `src/`.  §3 of the spec and the uses in `syntax.rs` give it a
name, attributes and poison errors; `is_trait` mirrors the modifier bit. -/
structure StructData where
  name : String
  attributes : List Attribute
  poisoned : List PError
  is_trait : Bool
deriving DecidableEq

/-- Modelled from the spec: `FinalizedTypes` lives in
`language/syntax/src/types.rs`, which is not under `src/`.  §3 of the spec
gives the closed variant list: `Struct(StructData)`, `Reference(T)`,
`Array(T)`, `Generic(name, bounds)`, `GenericType(inner, args)`. -/
inductive FinalizedTypes where
  | Struct (data : StructData)
  | Reference (inner : FinalizedTypes)
  | Array (inner : FinalizedTypes)
  | Generic (name : String) (bounds : List FinalizedTypes)
  | GenericType (inner : FinalizedTypes) (args : List FinalizedTypes)

mutual

/-- `Syntax::solve` from `language/syntax/src/syntax.rs` (lines 122-145).
For a `Generic(_, bounds)` second operand it recursively requires every bound
to solve; for any other second operand it builds an `Implements` goal and runs
the bounded chalk `RecursiveSolver(30, 3000)`.  The chalk back end is an
external crate (and `inner_struct` lives in `types.rs`, not under `src/`), so
that whole delegated decision is abstracted as the `oracle` parameter. -/
def solve (oracle : FinalizedTypes → FinalizedTypes → Bool) (first : FinalizedTypes) :
    FinalizedTypes → Bool
  | .Generic _ bounds => solveBounds oracle first bounds
  | second => oracle first second

/-- The `for bound in bounds` loop inside `Syntax::solve`: fails as soon as one
bound fails, succeeds when all (possibly zero) bounds succeed. -/
def solveBounds (oracle : FinalizedTypes → FinalizedTypes → Bool) (first : FinalizedTypes) :
    List FinalizedTypes → Bool
  | [] => true
  | bound :: rest => solve oracle first bound && solveBounds oracle first rest

end

/-! ## The token-based parser (`language/parser/src/parser/code_parser.rs`) -/

/-- Modelled from the spec: the `TokenTypes` enum lives in
`language/parser/src/tokens/tokens.rs`, which is not under `src/`.  §3 of the
spec gives the closed variant list; `Start` and `Period` appear in the `src/`
files (`tokenizer.rs`, `code_parser.rs`) as well. -/
inductive TokenTypes where
  | Start
  | LineEnd
  | ParenOpen
  | ParenClose
  | BlockStart
  | BlockEnd
  | CodeEnd
  | ArgumentEnd
  | Colon
  | Equals
  | Operator
  | Variable
  | CallingType
  | Integer
  | Float
  | True
  | False
  | StringStart
  | StringEscape
  | StringEnd
  | Let
  | Return
  | New
  | If
  | Else
  | For
  | While
  | Period
  | Comment
  | InvalidCharacters
  | EOF
deriving DecidableEq

/-- A token.  The Rust `Token` holds `(token_type, start, end)` into a shared
byte buffer and `token.to_string(buffer)` extracts the spanned text; the model
stores that text directly. -/
structure Token where
  token_type : TokenTypes
  text : String
deriving DecidableEq

/-- Modelled from the spec: the `Effects` enum of the new parser lives in
`language/syntax/src/code.rs`, which is not under `src/`.  §3 of the spec
lists its variants; only the ones the claims touch are carried here, with a
representative subset of the rest. -/
inductive Effects where
  | NOP
  | Int (value : Int)
  | Bool (value : Bool)
  | String (value : String)
  | LoadVariable (name : String)
  | Load (base : Effects) (field : String)
  | Paren (inner : Effects)
deriving DecidableEq

/-- `parse_string` from `language/parser/src/parser/code_parser.rs`
(lines 253-272), with the growing `string` passed as the `acc` accumulator and
the cursor into the shared token vector modelled by consuming a token list.
`StringEnd`: the token's text minus its final character (the closing quote) is
appended, and the result is returned with `"\0"` appended.  `StringEscape`:
the token's text minus its final character (the escape backslash) is appended.
`StringStart` tokens are skipped.  `none` models the panics (the catch-all
panic arm and running off the end of the token vector); the Rust slicing
`&found[0..found.len() - 1]` drops the final byte, modelled charwise by
`String.dropRight 1`. -/
def parse_string : List Token → String → Option (Effects × List Token)
  | [], _ => none
  | t :: rest, acc =>
    match t.token_type with
    | .StringEnd => some (.String (acc ++ t.text.dropRight 1 ++ "\x00"), rest)
    | .StringEscape => parse_string rest (acc ++ t.text.dropRight 1)
    | .StringStart => parse_string rest acc
    | _ => none

/-- `parse_new_args` from `language/parser/src/parser/code_parser.rs`
(lines 357-386).  The call to `parse_line` in the `Colon` arm reaches large
parts of the parser that live outside `src/` (`control_parser.rs`,
`operator_parser.rs`), so it is abstracted as the `pl` parameter returning the
parsed effect and the remaining tokens (`none` covering both a parse error
and a void value, which the source also turns into an error).  `fuel` bounds
the loop; `none` models fuel exhaustion and the panics.  `Variable` stores the
token text as the pending field name; `Colon` parses a line and records
`(name, effect)`; `ArgumentEnd` records the shorthand
`(name, LoadVariable(name))`; `BlockEnd` ends the argument list;
`InvalidCharacters` and `Comment` are skipped. -/
def parse_new_args (pl : List Token → Option (Effects × List Token)) :
    Nat → String → List Token → Option (List (String × Effects) × List Token)
  | 0, _, _ => none
  | _ + 1, _, [] => none
  | fuel + 1, name, t :: rest =>
    match t.token_type with
    | .Variable => parse_new_args pl fuel t.text rest
    | .Colon =>
      match pl rest with
      | some (eff, rest2) =>
        (parse_new_args pl fuel "" rest2).map (fun p => ((name, eff) :: p.1, p.2))
      | none => none
    | .ArgumentEnd =>
      (parse_new_args pl fuel "" rest).map
        (fun p => ((name, Effects.LoadVariable name) :: p.1, p.2))
    | .BlockEnd => some ([], rest)
    | .InvalidCharacters => parse_new_args pl fuel name rest
    | .Comment => parse_new_args pl fuel name rest
    | _ => none

/-- The character-level engine of Rust's `str::replace("{+}", "{}")`: scan
left to right, replacing each non-overlapping occurrence of `{+}` by `{}`. -/
def replacePlusChars : List Char → List Char
  | '{' :: '+' :: '}' :: rest => '{' :: '}' :: replacePlusChars rest
  | c :: rest => c :: replacePlusChars rest
  | [] => []

/-- `name.replace("{+}", "{}")` from `Syntax::add` (`syntax.rs` line 177). -/
def replacePlus (s : String) : String :=
  ⟨replacePlusChars s.data⟩

/-! ## The symbol registry (`language/syntax/src/syntax.rs`)

The registry claims only touch an element's name, poison list, attributes and
trait-ness, which `StructData` already carries, so `StructData` stands in for
both `FunctionData` and `StructData` elements (the registry handles both
uniformly through the `TopElement` trait).  Wakers are modelled by numeric
identifiers; an `add`/`finish` call returns the list of waker identifiers it
fired, in firing order, so "fired exactly once" is the multiplicity in that
list.  The single mutex around the registry serialises every `add`, so `add`
is modelled as a sequential state transformer (the `id`-ordering spin loop at
the top of `Syntax::add` only sequences concurrent callers). -/

/-- The registry kinds: `T::get_manager` sends `FunctionData` to
`syntax.functions` and `StructData` to `syntax.structures`. -/
inductive TopKind where
  | functions
  | structures
deriving DecidableEq

/-- `TopElement::is_operator`. For `FunctionData` the source returns `false`
(`function.rs` lines 64-66).  Modelled from the spec for `StructData`
(`language/syntax/src/struct.rs` is not under `src/`): per §6 a trait becomes
an operator iff it carries an attribute named `operation`; that the attribute
must be a *string* attribute is enforced at the use site in `Syntax::add`. -/
def isOperator : TopKind → StructData → Bool
  | .functions, _ => false
  | .structures, d => d.is_trait && (findAttribute "operation" d.attributes).isSome

/-- `TopElement::poison`: push the error onto the element's poison list. -/
def StructData.poison (d : StructData) (error : PError) : StructData :=
  { d with poisoned := d.poisoned ++ [error] }

/-- One `AsyncGetter<T>` of the registry: `types` (name → element), `sorted`
(insertion order) and `wakers` (name → continuations waiting on it).
Hash maps become association lists looked up with `List.lookup`. -/
structure TopElementManager where
  types : List (String × StructData)
  sorted : List StructData
  wakers : List (String × List Nat)
deriving DecidableEq

/-- The registry state of `Syntax` (`syntax.rs` lines 27-47): the global error
vector, both managers, the operations table, the operation wakers and the
`async_manager.finished` flag.  The `compiling` maps and the chalk state play
no part in the registry claims and are omitted. -/
structure Syntax where
  errors : List PError
  structures : TopElementManager
  functions : TopElementManager
  operations : List (String × StructData)
  operation_wakers : List (String × List Nat)
  finished : Bool
deriving DecidableEq

def Syntax.getManager (s : Syntax) : TopKind → TopElementManager
  | .functions => s.functions
  | .structures => s.structures

def Syntax.setManager (s : Syntax) : TopKind → TopElementManager → Syntax
  | .functions, m => { s with functions := m }
  | .structures, m => { s with structures := m }

/-- In-place mutation of the element stored under a name (the Rust code
mutates through the shared `Arc`, which also aliases the `sorted` entry). -/
def poisonEntry (mgr : TopElementManager) (name : String) (error : PError) :
    TopElementManager :=
  { mgr with
    types := mgr.types.map (fun p => if p.1 = name then (p.1, p.2.poison error) else p),
    sorted := mgr.sorted.map (fun d => if d.name = name then d.poison error else d) }

/-- The name-collision part of `Syntax::add` (`syntax.rs` lines 157-168):
if the name is taken, the source tests `adding.errors().is_empty()` twice
(never the existing item's errors); when that passes it records the duplicate
error globally and poisons the *existing* item; otherwise it does nothing
("Ignored if one is poisoned").  If the name is free, the item is pushed onto
`sorted` and inserted into `types`. -/
def collide (mgr : TopElementManager) (errors : List PError) (dupe_error : PError)
    (adding : StructData) : List PError × TopElementManager :=
  match List.lookup adding.name mgr.types with
  | some _old =>
    if adding.poisoned.isEmpty && adding.poisoned.isEmpty then
      (errors ++ [dupe_error], poisonEntry mgr adding.name dupe_error)
    else
      (errors, mgr)
  | none =>
    (errors, { mgr with sorted := mgr.sorted ++ [adding],
                        types := (adding.name, adding) :: mgr.types })

/-- `Syntax::add` from `language/syntax/src/syntax.rs` (lines 148-203).
Returns the updated syntax and the fired waker ids in firing order; `none`
models the `unwrap` panic on a missing `operation` attribute (unreachable for
the modelled `is_operator`).  Steps, in source order: push the item's own
poison errors; handle the name collision (`collide`); if the item is an
operator, read its `operation` attribute - a non-string attribute pushes
`Expected a string with attribute operator!` and returns early (no operator
entry, no wakers fired); otherwise normalise `{+}` to `{}` in the value, push
the duplicate error if the operations table already has that key, fire (but
do not remove) the operation wakers for it and insert the entry; finally
drain and fire the manager's wakers for the item's name. -/
def Syntax.add (s : Syntax) (kind : TopKind) (dupe_error : PError) (adding : StructData) :
    Option (Syntax × List Nat) :=
  let errors1 := s.errors ++ adding.poisoned
  let step := collide (s.getManager kind) errors1 dupe_error adding
  let errors2 := step.1
  let mgr2 := step.2
  if isOperator kind adding then
    match findAttribute "operation" adding.attributes with
    | some (Attribute.string _ value) =>
      let opName := replacePlus value
      let errors3 :=
        if (List.lookup opName s.operations).isSome then errors2 ++ [dupe_error] else errors2
      let firedOps := (List.lookup opName s.operation_wakers).getD []
      let firedName := (List.lookup adding.name mgr2.wakers).getD []
      let mgr3 := { mgr2 with wakers := mgr2.wakers.filter (fun p => !(p.1 == adding.name)) }
      some (Syntax.setManager
        { s with errors := errors3, operations := (opName, adding) :: s.operations }
        kind mgr3, firedOps ++ firedName)
    | some (Attribute.other _) =>
      some (Syntax.setManager
        { s with errors := errors2 ++ ["Expected a string with attribute operator!"] }
        kind mgr2, [])
    | none => none
  else
    let firedName := (List.lookup adding.name mgr2.wakers).getD []
    let mgr3 := { mgr2 with wakers := mgr2.wakers.filter (fun p => !(p.1 == adding.name)) }
    some (Syntax.setManager { s with errors := errors2 } kind mgr3, firedName)

/-- `Syntax::finish` from `language/syntax/src/syntax.rs` (lines 70-88).
`none` models the `panic!("Tried to finish already-finished syntax!")`.
Otherwise the flag is set, every waker in `structures.wakers` and
`functions.wakers` is fired once (`wake_by_ref`) and both maps are cleared.
`operation_wakers` is not touched. -/
def Syntax.finish (s : Syntax) : Option (Syntax × List Nat) :=
  if s.finished then none
  else
    some ({ s with finished := true,
                   structures := { s.structures with wakers := [] },
                   functions := { s.functions with wakers := [] } },
          (s.structures.wakers.map Prod.snd).flatten ++ (s.functions.wakers.map Prod.snd).flatten)

/-! ## The monomorphiser (`language/syntax/src/function.rs`) -/

/-- `FunctionData` from `language/syntax/src/function.rs` (lines 22-27), plus
`arcId`, a model artifact standing for the identity of the `Arc<FunctionData>`
allocation: cloning an `Arc` keeps the id, `Arc::new(FunctionData::clone(..))`
gets a fresh one.  `Hash`/`PartialEq` for `FunctionData` compare only the
name (lines 371-383), so the registry's data map is keyed by name below. -/
structure FunctionData where
  attributes : List Attribute
  modifiers : Nat
  name : String
  poisoned : List PError
  arcId : Nat
deriving DecidableEq

/-- Modelled from the spec: `FinalizedMemberField` lives in
`language/syntax/src/code.rs`, which is not under `src/`; from the uses in
`function.rs` (`argument.field.field_type`) it carries a field name and a
finalized type. -/
structure FinalizedMemberField where
  name : String
  field_type : FinalizedTypes

/-- `CodelessFinalizedFunction` from `language/syntax/src/function.rs`
(lines 122-128). -/
structure CodelessFinalizedFunction where
  generics : List (String × List FinalizedTypes)
  arguments : List FinalizedMemberField
  return_type : Option FinalizedTypes
  data : FunctionData

/-- `derive(Clone)` for `CodelessFinalizedFunction`: a field-wise copy whose
`data` is the same `Arc` (same `arcId`) - cloning never re-allocates the
`FunctionData`. -/
def CodelessFinalizedFunction.clone (f : CodelessFinalizedFunction) :
    CodelessFinalizedFunction :=
  { generics := f.generics, arguments := f.arguments,
    return_type := f.return_type, data := f.data }

mutual

/-- Modelled from the spec: the `Display` used to mangle type arguments lives
in `language/syntax/src/types.rs`, not under `src/`.  §6 of the spec fixes the
format: structs by their own (mangled) name, arrays `[T]`, references `&T`;
generics print their name. -/
def FinalizedTypes.display : FinalizedTypes → String
  | .Struct d => d.name
  | .Reference inner => "&" ++ inner.display
  | .Array inner => "[" ++ inner.display ++ "]"
  | .Generic n _ => n
  | .GenericType inner args =>
    inner.display ++ "<" ++ String.intercalate ", " (displayAll args) ++ ">"

def displayAll : List FinalizedTypes → List String
  | [] => []
  | t :: rest => t.display :: displayAll rest

end

mutual

/-- Modelled from the spec: `Types::degeneric` (the type-level substitution)
lives in `language/syntax/src/types.rs`, not under `src/`.  §4.5 of the spec:
"substitute into argument and return types" - each `Generic(name, _)` node is
replaced by the concrete type recorded for `name` in the substitution map,
recursively through references, arrays and generic type applications. -/
def FinalizedTypes.substitute (gens : List (String × FinalizedTypes)) :
    FinalizedTypes → FinalizedTypes
  | .Struct d => .Struct d
  | .Reference inner => .Reference (inner.substitute gens)
  | .Array inner => .Array (inner.substitute gens)
  | .Generic n bounds =>
    match List.lookup n gens with
    | some t => t
    | none => .Generic n bounds
  | .GenericType inner args => .GenericType (inner.substitute gens) (substituteAll gens args)

def substituteAll (gens : List (String × FinalizedTypes)) :
    List FinalizedTypes → List FinalizedTypes
  | [] => []
  | t :: rest => t.substitute gens :: substituteAll gens rest

end

/-- The mangled-name computation of `CodelessFinalizedFunction::degeneric`
(`function.rs` lines 187-189):
`format!("{}${}", method.data.name.split("$").next().unwrap(),
display_parenless(&manager.generics().values().collect(), "_"))` - the part
of the name before the first `$`, a `$`, and the concrete type arguments
joined by `_` (`display_parenless` of the substitution map's values). -/
def mangledName (method : CodelessFinalizedFunction)
    (gens : List (String × FinalizedTypes)) : String :=
  (⟨method.data.name.data.takeWhile (fun c => c != '$')⟩ : String) ++ "$" ++
    String.intercalate "_" (gens.map (fun g => g.2.display))

/-- The slice of the functions `AsyncGetter` that
`CodelessFinalizedFunction::degeneric` touches: `types` (name → static data),
`data` (static data → codeless function, keyed by the data's name since
`FunctionData` hashes and compares by name), the next fresh `Arc` id, and the
body-specialisation tasks spawned so far (original name, specialised name). -/
structure FnRegistry where
  types : List (String × FunctionData)
  data : List (String × CodelessFinalizedFunction)
  nextArcId : Nat
  pendingBodies : List (String × String)

/-- `CodelessFinalizedFunction::degeneric` from
`language/syntax/src/function.rs` (lines 148-228), taking the substitution map
`gens` as already computed (the `resolve_generic` unification loop over the
call's arguments and expected return type lives in `types.rs`, not under
`src/`; `gens` is `manager.generics()` after that loop).  Compute the mangled
name; if the registry already has a function under it, return the handle the
registry holds (`AsyncDataGetter` awaits the entry in the data map; `none`
models an entry that never arrives).  Otherwise clone the method, clear its
generics, substitute the concrete types into argument and return types, give
the clone a fresh `FunctionData` carrying the mangled name, register it under
the mangled name, and spawn the body-specialisation task.  `degenericClone`
is the clone made in the miss branch (`function.rs` lines 195-214): generics
cleared, argument and return types substituted, and a fresh `FunctionData`
(fresh `Arc`, id `fresh`) carrying the mangled name. -/
def degenericClone (method : CodelessFinalizedFunction)
    (gens : List (String × FinalizedTypes)) (fresh : Nat) : CodelessFinalizedFunction :=
  { generics := [],
    arguments := method.arguments.map
      (fun a => { a with field_type := a.field_type.substitute gens }),
    return_type := method.return_type.map (fun t => t.substitute gens),
    data := { method.data with name := mangledName method gens, arcId := fresh } }

/-- The registry update and cache check of `CodelessFinalizedFunction::degeneric`
(see `degenericClone` above for the clone itself). -/
def degeneric (method : CodelessFinalizedFunction)
    (gens : List (String × FinalizedTypes)) (reg : FnRegistry) :
    Option (CodelessFinalizedFunction × FnRegistry) :=
  let name := mangledName method gens
  match List.lookup name reg.types with
  | some data => (List.lookup data.name reg.data).map (fun f => (f, reg))
  | none =>
    let new_method := degenericClone method gens reg.nextArcId
    some (new_method,
      { types := (name, new_method.data) :: reg.types,
        data := (name, new_method) :: reg.data,
        nextArcId := reg.nextArcId + 1,
        pendingBodies := (method.data.name, name) :: reg.pendingBodies })

end Raven

/-- Helper: the bounds loop succeeds iff every bound solves. -/
theorem Raven.solveBounds_eq_all (oracle : Raven.FinalizedTypes → Raven.FinalizedTypes → Bool)
    (first : Raven.FinalizedTypes) (bounds : List Raven.FinalizedTypes) :
    Raven.solveBounds oracle first bounds = true ↔
      ∀ b ∈ bounds, Raven.solve oracle first b = true := by
  induction bounds with
  | nil => simp [Raven.solveBounds]
  | cons b rest ih => simp [Raven.solveBounds, Bool.and_eq_true, ih]

/-- C4: `solve` on a `Generic(_, bounds)` second operand succeeds iff every
bound succeeds (hence succeeds on empty bounds), and on every non-generic
second operand it delegates directly to the bounded constraint solver (the
oracle) without recursing into bounds. -/
theorem Raven.c4_solve_generic_bounds
    (oracle : Raven.FinalizedTypes → Raven.FinalizedTypes → Bool)
    (first : Raven.FinalizedTypes) (name : String) (bounds : List Raven.FinalizedTypes) :
    (Raven.solve oracle first (.Generic name bounds) = true ↔
      ∀ b ∈ bounds, Raven.solve oracle first b = true) ∧
    (Raven.solve oracle first (.Generic name []) = true) ∧
    (∀ d, Raven.solve oracle first (.Struct d) = oracle first (.Struct d)) ∧
    (∀ t, Raven.solve oracle first (.Reference t) = oracle first (.Reference t)) ∧
    (∀ t, Raven.solve oracle first (.Array t) = oracle first (.Array t)) ∧
    (∀ t args, Raven.solve oracle first (.GenericType t args) =
      oracle first (.GenericType t args)) := by
  refine ⟨?_, ?_, ?_, ?_, ?_, ?_⟩
  · rw [Raven.solve]
    exact Raven.solveBounds_eq_all oracle first bounds
  · rw [Raven.solve, Raven.solveBounds]
  · intro d; rw [Raven.solve]; intro n bs h; exact Raven.FinalizedTypes.noConfusion h
  · intro t; rw [Raven.solve]; intro n bs h; exact Raven.FinalizedTypes.noConfusion h
  · intro t; rw [Raven.solve]; intro n bs h; exact Raven.FinalizedTypes.noConfusion h
  · intro t args; rw [Raven.solve]; intro n bs h; exact Raven.FinalizedTypes.noConfusion h

/-- C3 (code bug): `assign_with_priority` rotates the newly built operator
with its right operand exactly when that operand is an operator effect of
lower priority (or equal priority with `parse_left`) - the claim's rotation
condition, first conjunct.  But the claimed parse of `1+2*3;` is
unconstructible by the cited parser: with the claim's operator table
(`{}+{}` priority 10 left, `{}*{}` priority 20 left, both trait functions
binary), `parse_operator` invoked at the `+` (so `last = Int 1`, remaining
input `+2*3;`, escape `;`/`\x7d` as in `parse_expression`) returns `None`
for *every* sub-effect parser `pe` and type resolver `rt`: each template is
abandoned at its first literal character because the arity check
`function.fields.len() != effects.len()+1` (code.rs line 158) runs with the
trailing hole not yet parsed (2 vs 1), so no binary operator effect is ever
built and `assign_with_priority` is never reached - second conjunct. -/
theorem Raven.c3_binary_operator_code_bug :
    (∀ (f rf : String) (p rp : Int) (l rl : Bool) (es : List Raven.REffects)
        (r0 : Raven.REffects) (rr : List Raven.REffects),
      Raven.assign_with_priority f p l (es ++ [.OperatorEffect rf rp rl (r0 :: rr)]) =
        if rp < p ∨ (rp = p ∧ rl = true) then
          some (.OperatorEffect rf rp rl
            (.OperatorEffect f p l (es ++ [.NOP]) :: rr))
        else
          some (.OperatorEffect f p l (es ++ [.OperatorEffect rf rp rl (r0 :: rr)]))) ∧
    (∀ (pe : List Char → List Char → Option (Raven.REffects × List Char))
        (rt : Raven.REffects → Option String),
      Raven.parse_operator pe rt
        [("{}+{}", ⟨"add", ["i64", "i64"], 10, true⟩),
         ("{}*{}", ⟨"mul", ["i64", "i64"], 20, true⟩)]
        (some (.IntLit 1)) [';', '\x7d'] "+2*3;".data = some none) := by
  constructor
  · intro f rf p rp l rl es r0 rr
    unfold Raven.assign_with_priority
    rw [List.getLast?_concat, List.dropLast_concat]
  · intro pe rt
    rfl

/-- C8: every `Effects::String` produced by `parse_string` is NUL-terminated,
and the construction strips the final character (the closing quote) from the
`StringEnd` token's text and the final character from each `StringEscape`
segment before concatenating. -/
theorem Raven.c8_parse_string_nul_terminated
    (toks : List Raven.Token) (acc : String) :
    (∀ e rest, Raven.parse_string toks acc = some (e, rest) →
      ∃ content, e = Raven.Effects.String (content ++ "\x00")) ∧
    (∀ txt rest, Raven.parse_string (⟨.StringEnd, txt⟩ :: rest) acc =
      some (.String (acc ++ txt.dropRight 1 ++ "\x00"), rest)) ∧
    (∀ txt rest, Raven.parse_string (⟨.StringEscape, txt⟩ :: rest) acc =
      Raven.parse_string rest (acc ++ txt.dropRight 1)) := by
  refine ⟨?_, fun txt rest => rfl, fun txt rest => rfl⟩
  induction toks generalizing acc with
  | nil => intro e rest h; exact absurd h (by simp [Raven.parse_string])
  | cons t rest ih =>
    intro e rest2 h
    obtain ⟨tt, txt⟩ := t
    cases tt <;> simp only [Raven.parse_string] at h
    all_goals try exact Option.noConfusion h
    case StringStart => exact ih acc e rest2 h
    case StringEscape => exact ih (acc ++ txt.dropRight 1) e rest2 h
    case StringEnd =>
      simp only [Option.some.injEq, Prod.mk.injEq] at h
      exact ⟨acc ++ txt.dropRight 1, by rw [← h.1]⟩

/-- C8 witness: on the concrete token list `[StringEnd "a\""]` the parser
yields the NUL-terminated string `"a\x00"`. -/
theorem Raven.c8_witness :
    ∃ content, Raven.Effects.String "a\x00" = Raven.Effects.String (content ++ "\x00") :=
  (Raven.c8_parse_string_nul_terminated [⟨.StringEnd, "a\""⟩] "").1
    (Raven.Effects.String "a\x00") [] (by decide)

/-- C10: in a struct-literal argument list, a field name followed by
`ArgumentEnd` records the shorthand pair `(name, LoadVariable(name))`, a field
name followed by `Colon` records `(name, parsed effect)`, and `BlockEnd` ends
the argument list. -/
theorem Raven.c10_parse_new_args_shorthand
    (pl : List Raven.Token → Option (Raven.Effects × List Raven.Token))
    (fuel : Nat) (nm n ta tb : String) (rest : List Raven.Token) :
    (Raven.parse_new_args pl (fuel + 2) nm (⟨.Variable, n⟩ :: ⟨.ArgumentEnd, ta⟩ :: rest) =
      (Raven.parse_new_args pl fuel "" rest).map
        (fun p => ((n, Raven.Effects.LoadVariable n) :: p.1, p.2))) ∧
    (∀ eff rest2, pl rest = some (eff, rest2) →
      Raven.parse_new_args pl (fuel + 2) nm (⟨.Variable, n⟩ :: ⟨.Colon, tb⟩ :: rest) =
        (Raven.parse_new_args pl fuel "" rest2).map
          (fun p => ((n, eff) :: p.1, p.2))) ∧
    (Raven.parse_new_args pl (fuel + 1) nm (⟨.BlockEnd, ta⟩ :: rest) = some ([], rest)) := by
  refine ⟨rfl, ?_, rfl⟩
  intro eff rest2 h
  show (match pl rest with
    | some (eff2, rest3) =>
      (Raven.parse_new_args pl fuel "" rest3).map
        (fun (p : List (String × Raven.Effects) × List Raven.Token) =>
          ((n, eff2) :: p.1, p.2))
    | none => none) = _
  rw [h]

/-- C10 witness: parsing the concrete argument list `x: <effect> }` with an
oracle line parser that returns `3` records `("x", 3)` and stops at the
block end. -/
theorem Raven.c10_witness :
    Raven.parse_new_args (fun toks => some (Raven.Effects.Int 3, toks)) 3 ""
      [⟨.Variable, "x"⟩, ⟨.Colon, ":"⟩, ⟨.BlockEnd, "\x7d"⟩] =
      some ([("x", Raven.Effects.Int 3)], []) := by
  have h := (Raven.c10_parse_new_args_shorthand
    (fun toks => some (Raven.Effects.Int 3, toks)) 1 "" "x" "," ":"
    [⟨.BlockEnd, "\x7d"⟩]).2.1 (Raven.Effects.Int 3) [⟨.BlockEnd, "\x7d"⟩] rfl
  exact h.trans (by rfl)

/-- Helper: `setManager` never touches the operations table. -/
theorem Raven.setManager_operations (s : Raven.Syntax) (k : Raven.TopKind)
    (m : Raven.TopElementManager) :
    (Raven.Syntax.setManager s k m).operations = s.operations := by
  cases k <;> rfl

/-- Helper: `setManager` never touches the error vector. -/
theorem Raven.setManager_errors (s : Raven.Syntax) (k : Raven.TopKind)
    (m : Raven.TopElementManager) :
    (Raven.Syntax.setManager s k m).errors = s.errors := by
  cases k <;> rfl

/-- C1 (code bug): on a name collision `Syntax::add` tests
`adding.errors().is_empty()` twice instead of also checking the existing
item's errors, and poisons only the existing item.  Concretely: `main` is
already registered *poisoned* (with `"earlier error"`) and a clean second
`main` is added; the claim (and the source's own comment
`//Ignored if one is poisoned`) say no duplicate error may be recorded, yet
the code appends `"duplicate function main"` to the global error vector and
to the existing item's poison list, while the new item receives nothing. -/
theorem Raven.c1_duplicate_check_code_bug :
    (Raven.Syntax.add
      { errors := [],
        structures := { types := [], sorted := [], wakers := [] },
        functions := { types := [(("main" : String), ⟨"main", [], ["earlier error"], false⟩)],
                       sorted := [⟨"main", [], ["earlier error"], false⟩], wakers := [] },
        operations := [], operation_wakers := [], finished := false }
      .functions "duplicate function main" ⟨"main", [], [], false⟩).map
      (fun p => (p.1.errors, List.lookup "main" p.1.functions.types, p.2)) =
    some (["duplicate function main"],
          some ⟨"main", [], ["earlier error", "duplicate function main"], false⟩,
          []) := by decide

/-- C5 counterexample: `finish` does not fire or clear operation wakers.  In a
state with a structure waker `1`, a function waker `2` and an operation waker
`7` registered for the template `{}+{}`, `finish` fires only `[1, 2]` and
leaves waker `7` registered. -/
theorem Raven.c5_counterexample_operation_wakers :
    (Raven.Syntax.finish
      { errors := [],
        structures := { types := [], sorted := [], wakers := [(("MyTrait" : String), [1])] },
        functions := { types := [], sorted := [], wakers := [(("foo" : String), [2])] },
        operations := [], operation_wakers := [(("{}+{}" : String), [7])],
        finished := false }).map
      (fun p => (p.2, p.1.operation_wakers)) =
    some ([1, 2], [(("{}+{}" : String), [7])]) := by decide

/-- C5 (amended): on a not-yet-finished syntax, `finish` fires every waker
registered in the structure and function waker maps exactly once and clears
both maps, and sets the finished flag; the operation wakers are neither fired
nor cleared. -/
theorem Raven.c5_finish_fires_wakers (s : Raven.Syntax) (h : s.finished = false) :
    ∃ s' fired, Raven.Syntax.finish s = some (s', fired) ∧
      fired = (s.structures.wakers.map Prod.snd).flatten ++
        (s.functions.wakers.map Prod.snd).flatten ∧
      (∀ w, fired.count w =
        (s.structures.wakers.map Prod.snd).flatten.count w +
        (s.functions.wakers.map Prod.snd).flatten.count w) ∧
      s'.structures.wakers = [] ∧ s'.functions.wakers = [] ∧
      s'.operation_wakers = s.operation_wakers ∧ s'.finished = true := by
  unfold Raven.Syntax.finish
  rw [if_neg (by simp [h])]
  exact ⟨_, _, rfl, rfl, fun w => List.count_append .., rfl, rfl, rfl, rfl⟩

/-- C5 witness: the amended statement at a concrete state holding a structure
waker, two function wakers and an operation waker. -/
theorem Raven.c5_witness :
    ∃ s' fired,
      Raven.Syntax.finish
        { errors := [],
          structures := { types := [], sorted := [], wakers := [(("A" : String), [3])] },
          functions := { types := [], sorted := [], wakers := [(("f" : String), [4, 5])] },
          operations := [], operation_wakers := [(("{}-{}" : String), [9])],
          finished := false } = some (s', fired) ∧
      fired = [3] ++ [4, 5] ∧
      (∀ w, fired.count w = List.count w [3] + List.count w [4, 5]) ∧
      s'.structures.wakers = [] ∧ s'.functions.wakers = [] ∧
      s'.operation_wakers = [(("{}-{}" : String), [9])] ∧ s'.finished = true :=
  Raven.c5_finish_fires_wakers _ rfl

/-- C9: finishing an already-finished syntax panics, and a successful finish
leaves the syntax finished, so a second `finish` on its result panics:
`finish` completes successfully at most once per value. -/
theorem Raven.c9_finish_at_most_once (s : Raven.Syntax) :
    (s.finished = true → Raven.Syntax.finish s = none) ∧
    (∀ s' fired, Raven.Syntax.finish s = some (s', fired) →
      Raven.Syntax.finish s' = none) := by
  constructor
  · intro h
    unfold Raven.Syntax.finish
    rw [if_pos h]
  · intro s' fired h
    unfold Raven.Syntax.finish at h
    by_cases hf : s.finished = true
    · rw [if_pos hf] at h; exact Option.noConfusion h
    · rw [if_neg hf] at h
      simp only [Option.some.injEq, Prod.mk.injEq] at h
      rw [← h.1]
      unfold Raven.Syntax.finish
      rw [if_pos rfl]

/-- C9 witness: `finish` on a concrete already-finished syntax panics. -/
theorem Raven.c9_witness :
    Raven.Syntax.finish
      { errors := [], structures := { types := [], sorted := [], wakers := [] },
        functions := { types := [], sorted := [], wakers := [] },
        operations := [], operation_wakers := [], finished := true } = none :=
  (Raven.c9_finish_at_most_once _).1 rfl

/-- C7: a top-level trait added to the registry becomes an operator iff it
carries a string attribute named `operation`: with a string `operation`
attribute the operations table is keyed by the attribute's value with `{+}`
normalised to `{}`; a non-string `operation` attribute pushes
`Expected a string with attribute operator!` and installs no entry (and fires
no wakers, returning early); without the attribute the element is not an
operator and the operations table is untouched. -/
theorem Raven.c7_operator_registration
    (s : Raven.Syntax) (dupe_error : Raven.PError) (adding : Raven.StructData)
    (htrait : adding.is_trait = true) :
    (∀ nm v, Raven.findAttribute "operation" adding.attributes =
        some (Raven.Attribute.string nm v) →
      (Raven.Syntax.add s .structures dupe_error adding).map (fun p => p.1.operations) =
        some ((Raven.replacePlus v, adding) :: s.operations)) ∧
    (∀ nm, Raven.findAttribute "operation" adding.attributes =
        some (Raven.Attribute.other nm) →
      (Raven.Syntax.add s .structures dupe_error adding).map
          (fun p => (p.1.operations, p.1.errors, p.2)) =
        some (s.operations,
          (Raven.collide (s.getManager .structures) (s.errors ++ adding.poisoned)
            dupe_error adding).1 ++ ["Expected a string with attribute operator!"],
          [])) ∧
    (Raven.findAttribute "operation" adding.attributes = none →
      (Raven.Syntax.add s .structures dupe_error adding).map (fun p => p.1.operations) =
        some s.operations) := by
  refine ⟨?_, ?_, ?_⟩
  · intro nm v hFind
    have hop : Raven.isOperator .structures adding = true := by
      simp [Raven.isOperator, htrait, hFind]
    simp [Raven.Syntax.add, hop, hFind, Raven.setManager_operations]
  · intro nm hFind
    have hop : Raven.isOperator .structures adding = true := by
      simp [Raven.isOperator, htrait, hFind]
    simp [Raven.Syntax.add, hop, hFind, Raven.setManager_operations,
      Raven.setManager_errors]
  · intro hFind
    have hop : Raven.isOperator .structures adding = false := by
      simp [Raven.isOperator, hFind]
    simp [Raven.Syntax.add, hop, Raven.setManager_operations]

/-- C7 witness: adding a concrete trait whose `operation` attribute is the
string `{}+{+}` installs it in the operations table under the normalised key
`{}+{}`. -/
theorem Raven.c7_witness :
    (Raven.Syntax.add
      { errors := [], structures := { types := [], sorted := [], wakers := [] },
        functions := { types := [], sorted := [], wakers := [] },
        operations := [], operation_wakers := [], finished := false }
      .structures "duplicate operation"
      ⟨"Add", [Raven.Attribute.string "operation" "{}+{+}"], [], true⟩).map
      (fun p => p.1.operations) =
    some [(("{}+{}" : String),
      ⟨"Add", [Raven.Attribute.string "operation" "{}+{+}"], [], true⟩)] := by
  have h := (Raven.c7_operator_registration
    { errors := [], structures := { types := [], sorted := [], wakers := [] },
      functions := { types := [], sorted := [], wakers := [] },
      operations := [], operation_wakers := [], finished := false }
    "duplicate operation"
    ⟨"Add", [Raven.Attribute.string "operation" "{}+{+}"], [], true⟩ rfl).1
    "operation" "{}+{+}" (by decide)
  exact h.trans (by decide)

/-- Helper: `degeneric` on a cache hit returns the registry's handle. -/
theorem Raven.degeneric_hit (method : Raven.CodelessFinalizedFunction)
    (gens : List (String × Raven.FinalizedTypes)) (reg : Raven.FnRegistry)
    (d : Raven.FunctionData)
    (hl : List.lookup (Raven.mangledName method gens) reg.types = some d) :
    Raven.degeneric method gens reg =
      (List.lookup d.name reg.data).map (fun f => (f, reg)) := by
  simp [Raven.degeneric, hl]

/-- Helper: `degeneric` on a cache miss installs and returns the clone. -/
theorem Raven.degeneric_miss (method : Raven.CodelessFinalizedFunction)
    (gens : List (String × Raven.FinalizedTypes)) (reg : Raven.FnRegistry)
    (hl : List.lookup (Raven.mangledName method gens) reg.types = none) :
    Raven.degeneric method gens reg =
      some (Raven.degenericClone method gens reg.nextArcId,
        { types := (Raven.mangledName method gens,
            (Raven.degenericClone method gens reg.nextArcId).data) :: reg.types,
          data := (Raven.mangledName method gens,
            Raven.degenericClone method gens reg.nextArcId) :: reg.data,
          nextArcId := reg.nextArcId + 1,
          pendingBodies :=
            (method.data.name, Raven.mangledName method gens) :: reg.pendingBodies }) := by
  simp [Raven.degeneric, hl]

/-- C2: monomorphising at the same concrete type arguments is idempotent:
if `degeneric` returns a handle and a registry, running it again on that
registry returns the same handle (the one the first call installed or found)
and the same registry, and the returned registry holds the mangled name
`base$τ1_τ2_…` (see `mangledName`). -/
theorem Raven.c2_degeneric_idempotent (method : Raven.CodelessFinalizedFunction)
    (gens : List (String × Raven.FinalizedTypes)) (reg : Raven.FnRegistry)
    (f : Raven.CodelessFinalizedFunction) (reg' : Raven.FnRegistry)
    (h : Raven.degeneric method gens reg = some (f, reg')) :
    Raven.degeneric method gens reg' = some (f, reg') ∧
    (List.lookup (Raven.mangledName method gens) reg'.types).isSome = true := by
  cases hl : List.lookup (Raven.mangledName method gens) reg.types with
  | some d =>
    rw [Raven.degeneric_hit method gens reg d hl] at h
    cases hd : List.lookup d.name reg.data with
    | none => rw [hd] at h; exact Option.noConfusion h
    | some g =>
      rw [hd] at h
      simp only [Option.map_some', Option.some.injEq, Prod.mk.injEq] at h
      obtain ⟨rfl, rfl⟩ := h
      refine ⟨?_, by simp [hl]⟩
      rw [Raven.degeneric_hit method gens reg d hl, hd]
      rfl
  | none =>
    rw [Raven.degeneric_miss method gens reg hl] at h
    simp only [Option.some.injEq, Prod.mk.injEq] at h
    obtain ⟨rfl, rfl⟩ := h
    constructor
    · have hl2 : List.lookup (Raven.mangledName method gens)
          ((Raven.mangledName method gens,
            (Raven.degenericClone method gens reg.nextArcId).data) :: reg.types) =
          some (Raven.degenericClone method gens reg.nextArcId).data := by
        simp [List.lookup]
      rw [Raven.degeneric_hit method gens _
        (Raven.degenericClone method gens reg.nextArcId).data hl2]
      simp [List.lookup, Raven.degenericClone, Raven.mangledName]
    · simp [List.lookup]

/-- C2 witness: specialising the identity function at `i64` on an empty
registry, then re-running `degeneric` on the resulting registry, returns the
handle installed by the first call, which is registered under the mangled
name `id$i64`. -/
theorem Raven.c2_witness :
    (∃ f reg',
      Raven.degeneric
          ⟨[("T", [])], [⟨"x", .Generic "T" []⟩], some (.Generic "T" []),
            ⟨[], 0, "id", [], 0⟩⟩
          [("T", .Struct ⟨"i64", [], [], false⟩)]
          { types := [], data := [], nextArcId := 1, pendingBodies := [] } =
        some (f, reg') ∧
      Raven.degeneric
          ⟨[("T", [])], [⟨"x", .Generic "T" []⟩], some (.Generic "T" []),
            ⟨[], 0, "id", [], 0⟩⟩
          [("T", .Struct ⟨"i64", [], [], false⟩)] reg' = some (f, reg') ∧
      (List.lookup (Raven.mangledName
          ⟨[("T", [])], [⟨"x", .Generic "T" []⟩], some (.Generic "T" []),
            ⟨[], 0, "id", [], 0⟩⟩
          [("T", .Struct ⟨"i64", [], [], false⟩)]) reg'.types).isSome = true) ∧
    Raven.mangledName
        ⟨[("T", [])], [⟨"x", .Generic "T" []⟩], some (.Generic "T" []),
          ⟨[], 0, "id", [], 0⟩⟩
        [("T", .Struct ⟨"i64", [], [], false⟩)] = "id$i64" := by
  constructor
  · refine ⟨_, _, rfl, ?_, ?_⟩
    · exact (Raven.c2_degeneric_idempotent _ _
        { types := [], data := [], nextArcId := 1, pendingBodies := [] } _ _ rfl).1
    · exact (Raven.c2_degeneric_idempotent _ _
        { types := [], data := [], nextArcId := 1, pendingBodies := [] } _ _ rfl).2
  · simp only [Raven.mangledName, Raven.FinalizedTypes.display, List.map_cons, List.map_nil]
    decide

/-- C6: a cache-miss `degeneric` produces a specialisation whose
`FunctionData` is fresh (its `Arc` id is the registry's next id, distinct
from the original's), whose name is the `$`-separated mangled name, whose
generics map is emptied, and whose argument and return types are substituted
with the concrete types; the body-specialisation task is scheduled; and a
plain clone (no monomorphisation) keeps referencing the same `FunctionData`.
-/
theorem Raven.c6_degeneric_fresh_data (method : Raven.CodelessFinalizedFunction)
    (gens : List (String × Raven.FinalizedTypes)) (reg : Raven.FnRegistry)
    (hnew : List.lookup (Raven.mangledName method gens) reg.types = none)
    (hptr : method.data.arcId < reg.nextArcId) :
    ∃ f reg', Raven.degeneric method gens reg = some (f, reg') ∧
      f.data.arcId = reg.nextArcId ∧
      f.data.arcId ≠ method.data.arcId ∧
      f.data.name = Raven.mangledName method gens ∧
      '$' ∈ f.data.name.data ∧
      f.generics = [] ∧
      f.arguments = method.arguments.map
        (fun a => { a with field_type := a.field_type.substitute gens }) ∧
      f.return_type = method.return_type.map (fun t => t.substitute gens) ∧
      reg'.pendingBodies =
        (method.data.name, Raven.mangledName method gens) :: reg.pendingBodies ∧
      (∀ g : Raven.CodelessFinalizedFunction,
        (Raven.CodelessFinalizedFunction.clone g).data = g.data) := by
  refine ⟨Raven.degenericClone method gens reg.nextArcId, _,
    Raven.degeneric_miss method gens reg hnew, rfl, (Nat.ne_of_lt hptr).symm, rfl, ?_,
    rfl, rfl, rfl, rfl, fun g => rfl⟩
  show ('$' : Char) ∈ (Raven.mangledName method gens).data
  simp [Raven.mangledName, String.data_append]

/-- C6 witness: specialising a concrete one-argument generic function on an
empty registry with next id `5` yields a fresh `FunctionData` with id `5`
(distinct from the original's id `0`), the mangled name, empty generics and
substituted types. -/
theorem Raven.c6_witness :
    ∃ f reg',
      Raven.degeneric
          ⟨[("T", [])], [⟨"y", .Generic "T" []⟩], none, ⟨[], 0, "box", [], 0⟩⟩
          [("T", .Reference (.Struct ⟨"u8", [], [], false⟩))]
          { types := [], data := [], nextArcId := 5, pendingBodies := [] } =
        some (f, reg') ∧
      f.data.arcId = 5 ∧
      f.data.arcId ≠ 0 ∧
      f.data.name = Raven.mangledName
        ⟨[("T", [])], [⟨"y", .Generic "T" []⟩], none, ⟨[], 0, "box", [], 0⟩⟩
        [("T", .Reference (.Struct ⟨"u8", [], [], false⟩))] ∧
      '$' ∈ f.data.name.data ∧
      f.generics = [] ∧
      f.arguments = ([⟨"y", .Generic "T" []⟩] : List Raven.FinalizedMemberField).map
        (fun a => { a with field_type :=
          a.field_type.substitute [("T", .Reference (.Struct ⟨"u8", [], [], false⟩))] }) ∧
      f.return_type = (none : Option Raven.FinalizedTypes).map
        (fun t => t.substitute [("T", .Reference (.Struct ⟨"u8", [], [], false⟩))]) ∧
      reg'.pendingBodies = [("box", Raven.mangledName
        ⟨[("T", [])], [⟨"y", .Generic "T" []⟩], none, ⟨[], 0, "box", [], 0⟩⟩
        [("T", .Reference (.Struct ⟨"u8", [], [], false⟩))])] ∧
      (∀ g : Raven.CodelessFinalizedFunction,
        (Raven.CodelessFinalizedFunction.clone g).data = g.data) :=
  Raven.c6_degeneric_fresh_data _ _
    { types := [], data := [], nextArcId := 5, pendingBodies := [] } rfl (by decide)
